import Mathlib

/-!
Shallow embedding of the SpaceX launch tracker (src/src/spacex_tracker.py and
src/app.py).

The SQLite tables are modelled as Lean lists of structures:
  - table `launches`  (schema in `_init_database`)  becomes `List Row`;
  - table `cache_metadata` becomes `List CacheRow`.
Timestamps (`datetime.now()`, `last_updated`, `fetched_at`) are modelled as
integer seconds; `timedelta(hours = h)` becomes `h * 3600` seconds.
SQL `INSERT OR REPLACE` on a table with a `TEXT PRIMARY KEY` is modelled as
removing the row with that key and appending the new row.
SQL `ORDER BY` is modelled as the stable `List.insertionSort`; SQLite emits
`GROUP BY` groups in ascending key order (no index is ever created on these
tables), and its sorter leaves rows with equal sort keys in the order they
were produced, which a stable sort captures.
The network layer (`requests.get` / `raise_for_status` / `.json()`) is
modelled by passing each of the three fetch results as an `Except Unit _`
argument: `Except.error ()` stands for any exception raised while fetching
or parsing that collection.  A Python `dict` built from id/name pairs is
modelled as the function obtained by looking the key up from the right
(later pairs win, as in a dict comprehension).
-/

/-- Row of the `launches` table.  Column types follow the schema: `success`
is a nullable INTEGER column (the writer only ever stores 1, 0 or NULL),
the serialized JSON blobs (`crew`, `payloads`, `failures`, `links`) are kept
as opaque strings, and `fetched_at` is a timestamp. -/
structure Row where
  id : String
  name : String
  date_utc : String
  date_unix : Int
  success : Option Int
  details : Option String
  rocket_id : Option String
  rocket_name : Option String
  launchpad_id : Option String
  launchpad_name : Option String
  crew : String
  payloads : String
  failures : String
  links : String
  fetched_at : Int
deriving DecidableEq

/-- Row of the `cache_metadata` table (`key`, `last_updated`, `data`). -/
structure CacheRow where
  key : String
  last_updated : Int
  data : Option String
deriving DecidableEq

/-- State of the SQLite database: both tables. -/
structure DB where
  launches : List Row
  cache : List CacheRow
deriving DecidableEq

/-- Raw launch object as returned by the remote API.  Fields that the code
reads with `launch[...]` (a `KeyError` when missing) are `Option` here with
`none` meaning the key is absent; fields read with `launch.get(...)` are
`Option` with `none` meaning absent or JSON null.  The `success` flag is the
nullable boolean of the API.  The four list/map valued fields are kept as
their `json.dumps` serializations. -/
structure RawLaunch where
  id : Option String
  name : Option String
  date_utc : Option String
  date_unix : Option Int
  success : Option Bool
  details : Option String
  rocket : Option String
  launchpad : Option String
  crew : String
  payloads : String
  failures : String
  links : String
deriving DecidableEq

/-- Python expression `1 if launch.get('success') else 0 if launch.get('success') is False else None`
from the insert in `fetch_launches`.  `some true` is truthy, `some false`
and `none` are falsy, and only `some false` `is False`. -/
def pySuccessEncode (s : Option Bool) : Option Int :=
  match s with
  | some true => some 1
  | some false => some 0
  | none => none

/-- Lookup of `dict.get` on a dict built by a comprehension from id/name
pairs: the last pair with the key wins. -/
def buildNameMap (pairs : List (String × String)) : String → Option String :=
  fun k => List.lookup k pairs.reverse

/-- Body of the per-launch insert in `fetch_launches` (lines 167-188 of
src/src/spacex_tracker.py): build the `launches` row from one raw launch and
the two name maps.  Returns `none` when a required key (`id`, `name`,
`date_utc`, `date_unix`) is missing, which in Python raises `KeyError`. -/
def transformLaunch (rockets launchpads : String → Option String) (now : Int)
    (l : RawLaunch) : Option Row :=
  match l.id, l.name, l.date_utc, l.date_unix with
  | some i, some n, some du, some dx =>
    some { id := i
           name := n
           date_utc := du
           date_unix := dx
           success := pySuccessEncode l.success
           details := l.details
           rocket_id := l.rocket
           rocket_name := l.rocket.bind rockets
           launchpad_id := l.launchpad
           launchpad_name := l.launchpad.bind launchpads
           crew := l.crew
           payloads := l.payloads
           failures := l.failures
           links := l.links
           fetched_at := now }
  | _, _, _, _ => none

/-- Transformation of the whole batch.  The Python loop transforms and
inserts record by record inside one uncommitted transaction, so a failure on
any record aborts the sync with nothing committed; transforming the whole
list first is therefore equivalent. -/
def transformAll (rockets launchpads : String → Option String) (now : Int) :
    List RawLaunch → Option (List Row)
  | [] => some []
  | l :: ls =>
    match transformLaunch rockets launchpads now l with
    | none => none
    | some row =>
      match transformAll rockets launchpads now ls with
      | none => none
      | some rows => some (row :: rows)

/-- SQL `INSERT OR REPLACE INTO launches` for one row: the PRIMARY KEY on
`id` makes this delete any row with the same id and insert the new row. -/
def upsertOne (r : Row) (s : List Row) : List Row :=
  s.filter (fun x => decide (x.id ≠ r.id)) ++ [r]

/-- Sequential per-record inserts of the fetch loop, in list order. -/
def upsertBatch (s : List Row) (rs : List Row) : List Row :=
  rs.foldl (fun acc r => upsertOne r acc) s

/-- Method `_should_refresh_cache` (lines 70-93): look the key up in
`cache_metadata`; with no row the cache must refresh, otherwise refresh
exactly when the age strictly exceeds the maximum age. -/
def _should_refresh_cache (db : DB) (cache_key : String)
    (max_age_hours : Int) (now : Int) : Bool :=
  match db.cache.find? (fun c => c.key == cache_key) with
  | none => true
  | some c => decide (now - c.last_updated > max_age_hours * 3600)

/-- Method `_update_cache_metadata`: `INSERT OR REPLACE INTO cache_metadata`
keyed on `key`, stamping the current time. -/
def _update_cache_metadata (db : DB) (cache_key : String) (now : Int)
    (data : Option String) : DB :=
  { db with cache := db.cache.filter (fun c => decide (c.key ≠ cache_key))
      ++ [{ key := cache_key, last_updated := now, data := data }] }

/-- Method `get_cache_last_updated`: the stored timestamp for the key, if
any (the Python code then formats it for the UI, which is presentation). -/
def get_cache_last_updated (db : DB) (cache_key : String) : Option Int :=
  (db.cache.find? (fun c => c.key == cache_key)).map (fun c => c.last_updated)

/-- Method `fetch_launches` (lines 131-203).  The three remote fetches are
inputs (`Except.error ()` = that fetch, status check or JSON parse raised);
`writeOk = false` models an SQLite error raised by the insert loop or the
commit, in which case the open transaction is never committed and the table
is left as it was.  On full success the batch is upserted, committed, and
only then is the cache metadata stamped.  Returns the Python return value
paired with the resulting database state. -/
def fetch_launches (db : DB) (now : Int) (force_refresh : Bool)
    (launchesR : Except Unit (List RawLaunch))
    (rocketsR : Except Unit (List (String × String)))
    (padsR : Except Unit (List (String × String)))
    (writeOk : Bool) : Bool × DB :=
  if !force_refresh && !(_should_refresh_cache db "launches" 24 now) then
    (true, db)
  else
    match launchesR, rocketsR, padsR with
    | Except.ok launches, Except.ok rockets, Except.ok pads =>
      match transformAll (buildNameMap rockets) (buildNameMap pads) now launches with
      | none => (false, db)
      | some rows =>
        if writeOk then
          (true, _update_cache_metadata
            { db with launches := upsertBatch db.launches rows } "launches" now none)
        else (false, db)
    | _, _, _ => (false, db)

/-- Modelled from the spec: the freshness predicate `isDue` as the spec
states it, including the clause that an empty Record Store is always due.
This definition exists only to be compared against the code definition
`_should_refresh_cache`, which carries no such clause. -/
def isDueSpec (db : DB) (cache_key : String) (max_age_hours : Int)
    (now : Int) : Bool :=
  match db.cache.find? (fun c => c.key == cache_key) with
  | none => true
  | some c =>
    decide (now - c.last_updated > max_age_hours * 3600) || db.launches.isEmpty

/-- Arguments of `SpaceXGradioApp.filter_launches` (src/app.py lines 51-119).
In Python each argument is optional; `none` models `None`. -/
structure Filters where
  start_date : Option Int
  end_date : Option Int
  rocket : Option String
  status : Option String
  launch_site : Option String
deriving DecidableEq

/-- Condition appended for `start_date`: Python `if start_date:` is false
for `None` and for `0`, otherwise the SQL `date_unix >= ?` is added. -/
def startCond (f : Filters) (r : Row) : Bool :=
  match f.start_date with
  | none => true
  | some v => if v = 0 then true else decide (v ≤ r.date_unix)

/-- Condition appended for `end_date`: SQL `date_unix <= ?`, skipped when
the argument is `None` or `0`. -/
def endCond (f : Filters) (r : Row) : Bool :=
  match f.end_date with
  | none => true
  | some v => if v = 0 then true else decide (r.date_unix ≤ v)

/-- Condition appended for `rocket`: Python `if rocket and rocket != "All"`
skips `None`, the empty string and `"All"`; otherwise SQL `rocket_name = ?`
(false on a NULL column). -/
def rocketCond (f : Filters) (r : Row) : Bool :=
  match f.rocket with
  | none => true
  | some v =>
    if v = "" ∨ v = "All" then true else decide (r.rocket_name = some v)

/-- Condition appended for `status`: only the three recognized values add a
condition (`success = 1`, `success = 0`, `success IS NULL`); `None`, the
empty string, `"All"` and unrecognized strings add none. -/
def statusCond (f : Filters) (r : Row) : Bool :=
  match f.status with
  | none => true
  | some v =>
    if v = "" ∨ v = "All" then true
    else if v = "Success" then decide (r.success = some 1)
    else if v = "Failed" then decide (r.success = some 0)
    else if v = "Pending" then r.success.isNone
    else true

/-- Condition appended for `launch_site`: SQL `launchpad_name = ?`, skipped
for `None`, the empty string and `"All"`. -/
def siteCond (f : Filters) (r : Row) : Bool :=
  match f.launch_site with
  | none => true
  | some v =>
    if v = "" ∨ v = "All" then true else decide (r.launchpad_name = some v)

/-- Conjunction of the collected conditions, as the WHERE clause joined with
`" AND "` (empty condition list gives `1=1`, always true). -/
def matchesFilters (f : Filters) (r : Row) : Bool :=
  startCond f r && endCond f r && rocketCond f r && statusCond f r && siteCond f r

/-- Ordering used by `ORDER BY date_unix DESC`. -/
def dateDescOrder (a b : Row) : Prop := b.date_unix ≤ a.date_unix

instance : DecidableRel dateDescOrder := fun a b => Int.decLe b.date_unix a.date_unix

/-- Stable sort of rows by `date_unix` descending. -/
def sortDateDesc (l : List Row) : List Row := l.insertionSort dateDescOrder

/-- Method `SpaceXGradioApp.get_all_launches_df` (src/app.py lines 24-49):
`SELECT ... FROM launches ORDER BY date_unix DESC`.  The SELECT projection
to six display columns and the pandas date reformatting are presentation
and do not affect which rows appear or their order, so rows are kept
whole. -/
def get_all_launches_df (db : DB) : List Row := sortDateDesc db.launches

/-- Method `SpaceXGradioApp.filter_launches`: the same query with the
collected WHERE conditions. -/
def filter_launches (f : Filters) (db : DB) : List Row :=
  sortDateDesc (db.launches.filter (fun r => matchesFilters f r))

/-- Method `get_recent_launches` (src/src/spacex_tracker.py lines 302-325):
`ORDER BY date_unix DESC LIMIT ?`. -/
def get_recent_launches (db : DB) (limit : Nat) : List Row :=
  (sortDateDesc db.launches).take limit

/-- SQL aggregate `SUM(CASE WHEN success = 1 THEN 1 ELSE 0 END)` over all
rows (`= 1` is false on a NULL column). -/
def successfulCount (db : DB) : Nat :=
  db.launches.countP (fun r => decide (r.success = some 1))

/-- SQL aggregate counting `success = 0`. -/
def failedCount (db : DB) : Nat :=
  db.launches.countP (fun r => decide (r.success = some 0))

/-- SQL aggregate counting `success IS NULL`. -/
def pendingCount (db : DB) : Nat :=
  db.launches.countP (fun r => r.success.isNone)

/-- Python `round` (banker's rounding, round half to even) of a rational. -/
def roundHalfEven (q : ℚ) : ℤ :=
  let n : ℤ := ⌊q⌋
  if q - n < 1 / 2 then n
  else if q - n > 1 / 2 then n + 1
  else if n % 2 = 0 then n else n + 1

/-- Python `round(x, 2)`: round to two decimal places, half to even.  The
binary floating point representation error of CPython floats is abstracted
away; the arithmetic is exact rational arithmetic. -/
def pyRound2 (q : ℚ) : ℚ := (roundHalfEven (q * 100) : ℚ) / 100

/-- Ordering on group rows used by `ORDER BY count DESC`. -/
def countDescOrder (a b : String × Nat) : Prop := b.2 ≤ a.2

instance : DecidableRel countDescOrder := fun a b => Nat.decLe b.2 a.2

/-- Ordering of TEXT values in SQLite: memcmp on the UTF-8 bytes, which is
exactly the lexicographic order on the code-point sequences. -/
def keyLe (a b : String) : Prop := a.data ≤ b.data

instance : DecidableRel keyLe :=
  fun a b => inferInstanceAs (Decidable (a.data ≤ b.data))

instance : IsTotal String keyLe := ⟨fun a b => le_total a.data b.data⟩

instance : IsTrans String keyLe := ⟨fun _ _ _ h1 h2 => le_trans h1 h2⟩

/-- Strict form of the TEXT ordering. -/
def keyLt (a b : String) : Prop := a.data < b.data

/-- Distinct non-NULL values of a projected name column, in ascending
order: the order in which SQLite emits `GROUP BY` groups for these
un-indexed tables. -/
def sortedKeys (names : List (Option String)) : List String :=
  ((names.filterMap id).dedup).insertionSort keyLe

/-- Count of rows whose `rocket_name` equals the given name. -/
def rocketNameCount (db : DB) (k : String) : Nat :=
  db.launches.countP (fun r => decide (r.rocket_name = some k))

/-- Query `SELECT rocket_name, COUNT(*) ... WHERE rocket_name IS NOT NULL
GROUP BY rocket_name ORDER BY count DESC` (lines 247-254): groups in
ascending key order, then the stable sort by count descending. -/
def by_rocket (db : DB) : List (String × Nat) :=
  ((sortedKeys (db.launches.map (fun r => r.rocket_name))).map
    (fun k => (k, rocketNameCount db k))).insertionSort countDescOrder

/-- Per-rocket outcome sums of the `by_rocket_success` query (lines
257-275): `GROUP BY rocket_name` with no ORDER BY, so ascending key order;
the Python dict comprehension preserves that order. -/
def by_rocket_success (db : DB) : List (String × Nat × Nat × Nat) :=
  (sortedKeys (db.launches.map (fun r => r.rocket_name))).map
    (fun k =>
      (k,
       db.launches.countP (fun r => decide (r.rocket_name = some k) && decide (r.success = some 1)),
       db.launches.countP (fun r => decide (r.rocket_name = some k) && decide (r.success = some 0)),
       db.launches.countP (fun r => decide (r.rocket_name = some k) && r.success.isNone)))

/-- Count of rows whose `launchpad_name` equals the given name. -/
def siteNameCount (db : DB) (k : String) : Nat :=
  db.launches.countP (fun r => decide (r.launchpad_name = some k))

/-- Query `SELECT launchpad_name, COUNT(*) ... WHERE launchpad_name IS NOT
NULL GROUP BY launchpad_name ORDER BY count DESC` (lines 278-285); the
Python `dict(...)` preserves the query order. -/
def by_launch_site (db : DB) : List (String × Nat) :=
  ((sortedKeys (db.launches.map (fun r => r.launchpad_name))).map
    (fun k => (k, siteNameCount db k))).insertionSort countDescOrder

/-- Result of `get_launch_statistics` (lines 205-300).  The `by_year` and
`by_month` groupings (strftime over the `date_utc` string) concern no claim
and are omitted. -/
structure LaunchStats where
  total : Nat
  successful : Nat
  failed : Nat
  pending : Nat
  success_rate : ℚ
  by_rocket : List (String × Nat)
  by_rocket_success : List (String × Nat × Nat × Nat)
  by_launch_site : List (String × Nat)
deriving DecidableEq

/-- Method `get_launch_statistics`: assemble the statistics dictionary.
With zero rows the SQL SUM aggregates are NULL and `successful or 0`
yields 0, which the countP model already gives. -/
def get_launch_statistics (db : DB) : LaunchStats :=
  { total := db.launches.length
    successful := successfulCount db
    failed := failedCount db
    pending := pendingCount db
    success_rate :=
      if 0 < db.launches.length then
        pyRound2 ((successfulCount db : ℚ) / (db.launches.length : ℚ) * 100)
      else 0
    by_rocket := by_rocket db
    by_rocket_success := by_rocket_success db
    by_launch_site := by_launch_site db }

/-- Well-formedness of the `success` column: the single writer only stores
1, 0 or NULL (claim C10 names exactly this invariant). -/
def successWF (r : Row) : Prop :=
  r.success = some 1 ∨ r.success = some 0 ∨ r.success = none

instance (r : Row) : Decidable (successWF r) := by
  unfold successWF; infer_instance

/-- Lexicographic ordering stating the tie-break rule: count strictly
descending, and on equal counts the grouping key strictly ascending. -/
def countKeyOrder (a b : String × Nat) : Prop :=
  b.2 < a.2 ∨ (a.2 = b.2 ∧ keyLt a.1 b.1)

instance : IsTotal Row dateDescOrder :=
  ⟨fun a b => le_total b.date_unix a.date_unix⟩

instance : IsTrans Row dateDescOrder :=
  ⟨fun _ _ _ hab hbc => le_trans hbc hab⟩

instance : IsTotal (String × Nat) countDescOrder :=
  ⟨fun a b => le_total b.2 a.2⟩

instance : IsTrans (String × Nat) countDescOrder :=
  ⟨fun _ _ _ hab hbc => le_trans hbc hab⟩

/-- Keep, for each id, only the last row of the batch carrying it, in the
order of those last occurrences.  This is what the sequential upserts leave
at the end of the table. -/
def dedupLastById : List Row → List Row
  | [] => []
  | r :: rs =>
    if r.id ∈ rs.map (fun x => x.id) then dedupLastById rs
    else r :: dedupLastById rs

/-- Supplied-predicate reading of the start-date filter after amendment: a
supplied lower bound of 0 is treated as absent (Python truthiness). -/
def startOk (f : Filters) (r : Row) : Prop :=
  ∀ v, f.start_date = some v → v ≠ 0 → v ≤ r.date_unix

/-- Supplied-predicate reading of the end-date filter after amendment: a
supplied upper bound of 0 is treated as absent (Python truthiness). -/
def endOk (f : Filters) (r : Row) : Prop :=
  ∀ v, f.end_date = some v → v ≠ 0 → r.date_unix ≤ v

/-- Supplied-predicate reading of the vehicle-name filter: empty string and
the `"All"` sentinel are treated as absent. -/
def rocketOk (f : Filters) (r : Row) : Prop :=
  ∀ v, f.rocket = some v → v ≠ "" → v ≠ "All" → r.rocket_name = some v

/-- Supplied-predicate reading of the outcome filter: each of the three
recognized status strings pins the `success` column; every other string
(including the `"All"` sentinel and the empty string) imposes nothing. -/
def statusOk (f : Filters) (r : Row) : Prop :=
  ∀ v, f.status = some v →
    ((v = "Success" → r.success = some 1) ∧
     (v = "Failed" → r.success = some 0) ∧
     (v = "Pending" → r.success = none))

/-- Supplied-predicate reading of the site-name filter: empty string and
the `"All"` sentinel are treated as absent. -/
def siteOk (f : Filters) (r : Row) : Prop :=
  ∀ v, f.launch_site = some v → v ≠ "" → v ≠ "All" → r.launchpad_name = some v

/-- Database with both tables empty. -/
def emptyDB : DB := { launches := [], cache := [] }

/-- Template row used to build concrete test rows. -/
def baseRow : Row :=
  { id := "A"
    name := "Mission A"
    date_utc := "2020-01-01T00:00:00.000Z"
    date_unix := 0
    success := none
    details := none
    rocket_id := none
    rocket_name := none
    launchpad_id := none
    launchpad_name := none
    crew := "[]"
    payloads := "[]"
    failures := "[]"
    links := "{}"
    fetched_at := 0 }

/-- Successful launch of a Falcon 9 (id "A"). -/
def rowA : Row :=
  { baseRow with
    id := "A"
    date_unix := 2
    success := some 1
    rocket_id := some "r9"
    rocket_name := some "Falcon 9"
    launchpad_id := some "p1"
    launchpad_name := some "Site 1" }

/-- Failed launch of a Falcon Heavy (id "B"). -/
def rowB : Row :=
  { baseRow with
    id := "B"
    name := "Mission B"
    date_unix := 1
    success := some 0
    rocket_id := some "rh"
    rocket_name := some "Falcon Heavy"
    launchpad_id := some "p1"
    launchpad_name := some "Site 1" }

/-- Store of the two-record scenario of claim C7. -/
def exampleDB : DB := { launches := [rowA, rowB], cache := [] }

/-- Cache metadata claiming `lastUpdated = now` (1000) over an empty store. -/
def staleDB : DB :=
  { launches := [], cache := [{ key := "launches", last_updated := 1000, data := none }] }

/-- Store holding one row with a positive `date_unix`. -/
def oneRowDB : DB := { launches := [{ baseRow with date_unix := 5 }], cache := [] }

/-- Filter set supplying only an epoch upper bound of 0. -/
def zeroEndFilters : Filters :=
  { start_date := none, end_date := some 0, rocket := none, status := none,
    launch_site := none }

/-- Raw launch with every required key present, a true success flag and a
vehicle reference that the rocket map resolves. -/
def rawA : RawLaunch :=
  { id := some "A"
    name := some "Mission A"
    date_utc := some "2020-01-01T00:00:00.000Z"
    date_unix := some 2
    success := some true
    details := none
    rocket := some "r9"
    launchpad := none
    crew := "[]"
    payloads := "[]"
    failures := "[]"
    links := "{}" }

/-- Row that `transformLaunch` produces from `rawA`. -/
def rowFromRawA : Row :=
  { id := "A"
    name := "Mission A"
    date_utc := "2020-01-01T00:00:00.000Z"
    date_unix := 2
    success := some 1
    details := none
    rocket_id := some "r9"
    rocket_name := some "Falcon 9"
    launchpad_id := none
    launchpad_name := none
    crew := "[]"
    payloads := "[]"
    failures := "[]"
    links := "{}"
    fetched_at := 0 }

/-!
Theorems.  Each claim of the specification is settled by one theorem below,
preceded by shared helper lemmas.
-/

/-- C2 counterexample: over an empty store whose metadata row claims
`lastUpdated = now` (both 1000), the spec predicate `isDue` is true (the
empty-store override) but the code, which never consults the `launches`
table, reports the cache fresh. -/
theorem c2_counterexample :
    isDueSpec staleDB "launches" 24 1000 = true ∧
    _should_refresh_cache staleDB "launches" 24 1000 = false := by
  decide

/-- C2 (amended): `_should_refresh_cache` returns true exactly when no
metadata row exists for the key or the age strictly exceeds the maximum
age; the Record Store contents are never consulted. -/
theorem c2_should_refresh_characterization :
    ∀ (db : DB) (key : String) (maxAge now : Int),
      _should_refresh_cache db key maxAge now = true ↔
        (db.cache.find? (fun c => c.key == key) = none ∨
         ∃ c, db.cache.find? (fun c => c.key == key) = some c ∧
           now - c.last_updated > maxAge * 3600) := by
  intro db key maxAge now
  unfold _should_refresh_cache
  cases h : db.cache.find? (fun c => c.key == key) with
  | none => simp
  | some c => simp

/-- C5: the success rate reported by `get_launch_statistics` is 0 when the
store is empty and otherwise equals successful divided by total, times 100,
rounded to two decimal places. -/
theorem c5_success_rate :
    ∀ db : DB,
      ((get_launch_statistics db).total = 0 →
        (get_launch_statistics db).success_rate = 0) ∧
      ((get_launch_statistics db).total ≠ 0 →
        (get_launch_statistics db).success_rate =
          pyRound2 (((get_launch_statistics db).successful : ℚ) /
            ((get_launch_statistics db).total : ℚ) * 100)) := by
  intro db
  unfold get_launch_statistics
  constructor
  · intro h
    simp only at h
    simp [h]
  · intro h
    simp only at h
    simp [Nat.pos_of_ne_zero h]

/-- C5 witness: the two branches instantiated, at the empty database and at
the two-row example database. -/
theorem c5_witness :
    (get_launch_statistics emptyDB).success_rate = 0 ∧
    (get_launch_statistics exampleDB).success_rate =
      pyRound2 (((get_launch_statistics exampleDB).successful : ℚ) /
        ((get_launch_statistics exampleDB).total : ℚ) * 100) :=
  ⟨(c5_success_rate emptyDB).1 (by decide), (c5_success_rate exampleDB).2 (by decide)⟩

/-- C6: whenever the per-launch transformation succeeds, the stored
`success` column is 1 exactly for a true remote flag, 0 exactly for a false
one and NULL exactly for an absent or null one, and the stored names are
the results of the dictionary lookups, an absent reference id or an absent
dictionary entry giving NULL rather than an error. -/
theorem c6_transform_fields :
    ∀ (rockets launchpads : String → Option String) (now : Int)
      (l : RawLaunch) (row : Row),
      transformLaunch rockets launchpads now l = some row →
      ((row.success = some 1 ↔ l.success = some true) ∧
       (row.success = some 0 ↔ l.success = some false) ∧
       (row.success = none ↔ l.success = none) ∧
       row.rocket_name =
         (match l.rocket with | some rid => rockets rid | none => none) ∧
       row.launchpad_name =
         (match l.launchpad with | some pid => launchpads pid | none => none)) := by
  intro rockets launchpads now l row h
  unfold transformLaunch at h
  cases hi : l.id with
  | none => rw [hi] at h; exact absurd h (by simp)
  | some i =>
  cases hn : l.name with
  | none => rw [hi, hn] at h; exact absurd h (by simp)
  | some n =>
  cases hu : l.date_utc with
  | none => rw [hi, hn, hu] at h; exact absurd h (by simp)
  | some du =>
  cases hx : l.date_unix with
  | none => rw [hi, hn, hu, hx] at h; exact absurd h (by simp)
  | some dx =>
  rw [hi, hn, hu, hx] at h
  simp only [Option.some.injEq] at h
  subst h
  refine ⟨?_, ?_, ?_, ?_, ?_⟩
  · cases hs : l.success with
    | none => simp [pySuccessEncode, hs]
    | some b => cases b <;> simp [pySuccessEncode, hs]
  · cases hs : l.success with
    | none => simp [pySuccessEncode, hs]
    | some b => cases b <;> simp [pySuccessEncode, hs]
  · cases hs : l.success with
    | none => simp [pySuccessEncode, hs]
    | some b => cases b <;> simp [pySuccessEncode, hs]
  · cases hr : l.rocket <;> simp
  · cases hp : l.launchpad <;> simp

/-- C6 witness: the theorem applied to a concrete raw launch with a true
success flag, a resolvable rocket id and no launchpad id. -/
theorem c6_witness :
    (rowFromRawA.success = some 1 ↔ rawA.success = some true) ∧
    (rowFromRawA.success = some 0 ↔ rawA.success = some false) ∧
    (rowFromRawA.success = none ↔ rawA.success = none) ∧
    rowFromRawA.rocket_name =
      (match rawA.rocket with
       | some rid => buildNameMap [("r9", "Falcon 9")] rid
       | none => none) ∧
    rowFromRawA.launchpad_name =
      (match rawA.launchpad with
       | some pid => buildNameMap [] pid
       | none => none) :=
  c6_transform_fields (buildNameMap [("r9", "Falcon 9")]) (buildNameMap [])
    0 rawA rowFromRawA (by decide)

/-- C1: whenever a sync is actually attempted (forced, or due per the
freshness check) and any of the three remote fetches, the record
transformation, or the batch write raises, `fetch_launches` returns false
and the database — both the `launches` table and the `cache_metadata`
timestamp — is exactly as it was before the call, so `markUpdated` was
never reached. -/
theorem c1_failed_sync_preserves_state :
    ∀ (db : DB) (now : Int) (force_refresh : Bool)
      (launchesR : Except Unit (List RawLaunch))
      (rocketsR padsR : Except Unit (List (String × String)))
      (writeOk : Bool),
      (force_refresh = true ∨ _should_refresh_cache db "launches" 24 now = true) →
      (launchesR = Except.error () ∨ rocketsR = Except.error () ∨
       padsR = Except.error () ∨
       (∃ ls rk pd, launchesR = Except.ok ls ∧ rocketsR = Except.ok rk ∧
          padsR = Except.ok pd ∧
          transformAll (buildNameMap rk) (buildNameMap pd) now ls = none) ∨
       writeOk = false) →
      fetch_launches db now force_refresh launchesR rocketsR padsR writeOk
        = (false, db) := by
  intro db now force_refresh launchesR rocketsR padsR writeOk hdue hfail
  have hguard :
      (!force_refresh && !(_should_refresh_cache db "launches" 24 now)) = false := by
    rcases hdue with h | h <;> simp [h]
  unfold fetch_launches
  rw [hguard]
  simp only [Bool.false_eq_true, if_false]
  rcases launchesR with e | ls
  · cases e; rcases rocketsR with e | rk <;> rcases padsR with e | pd <;> rfl
  · rcases rocketsR with e | rk
    · cases e; rcases padsR with e | pd <;> rfl
    · rcases padsR with e | pd
      · cases e; rfl
      · dsimp only
        rcases hfail with h | h | h | h | h
        · exact absurd h (by simp)
        · exact absurd h (by simp)
        · exact absurd h (by simp)
        · obtain ⟨ls1, rk1, pd1, h1, h2, h3, htr⟩ := h
          obtain rfl : ls1 = ls := by injection h1.symm
          obtain rfl : rk1 = rk := by injection h2.symm
          obtain rfl : pd1 = pd := by injection h3.symm
          rw [htr]
        · subst h
          cases transformAll (buildNameMap rk) (buildNameMap pd) now ls <;> simp

/-- C1 witness: a due sync (empty metadata) whose rockets fetch raises
leaves the empty database untouched and returns false. -/
theorem c1_witness :
    fetch_launches emptyDB 0 false (Except.ok []) (Except.error ())
      (Except.ok []) true = (false, emptyDB) :=
  c1_failed_sync_preserves_state emptyDB 0 false (Except.ok [])
    (Except.error ()) (Except.ok []) true (Or.inr (by decide))
    (Or.inr (Or.inl rfl))

theorem mem_dedupLastById_ids {x : Row} :
    ∀ {rs : List Row}, x ∈ dedupLastById rs → x.id ∈ rs.map (fun r => r.id)
  | [], h => absurd h (by simp [dedupLastById])
  | r :: rs, h => by
    simp only [dedupLastById] at h
    by_cases hc : r.id ∈ rs.map (fun y => y.id)
    · rw [if_pos hc] at h
      simp only [List.map_cons, List.mem_cons]
      exact Or.inr (mem_dedupLastById_ids h)
    · rw [if_neg hc] at h
      rcases List.mem_cons.mp h with rfl | h
      · simp
      · simp only [List.map_cons, List.mem_cons]
        exact Or.inr (mem_dedupLastById_ids h)

theorem upsertBatch_eq_filter_append :
    ∀ (rs : List Row) (s : List Row),
      upsertBatch s rs =
        s.filter (fun x => decide (x.id ∉ rs.map (fun r => r.id)))
          ++ dedupLastById rs
  | [], s => by simp [upsertBatch, dedupLastById]
  | r :: rs, s => by
    rw [show upsertBatch s (r :: rs) = upsertBatch (upsertOne r s) rs from rfl,
      upsertBatch_eq_filter_append rs (upsertOne r s)]
    unfold upsertOne
    rw [List.filter_append, List.filter_filter]
    simp only [dedupLastById]
    by_cases hc : r.id ∈ rs.map (fun y => y.id)
    · rw [if_pos hc]
      have hr : [r].filter (fun x => decide (x.id ∉ rs.map (fun y => y.id))) = [] := by
        simp [List.filter, hc]
      rw [hr, List.append_nil]
      congr 1
      apply List.filter_congr
      intro x _
      by_cases h1 : x.id = r.id <;> by_cases h2 : x.id ∈ rs.map (fun y => y.id) <;>
        simp [h1, h2, hc]
    · rw [if_neg hc]
      have hr : [r].filter (fun x => decide (x.id ∉ rs.map (fun y => y.id))) = [r] := by
        simp [List.filter, hc]
      rw [hr, List.append_assoc, List.singleton_append]
      congr 1
      apply List.filter_congr
      intro x _
      by_cases h1 : x.id = r.id <;> by_cases h2 : x.id ∈ rs.map (fun y => y.id) <;>
        simp [h1, h2, hc]

theorem countP_dedupLastById :
    ∀ (rs : List Row) (i : String), i ∈ rs.map (fun r => r.id) →
      (dedupLastById rs).countP (fun x => decide (x.id = i)) = 1
  | [], i, h => by simp at h
  | r :: rs, i, h => by
    have h' : i = r.id ∨ i ∈ rs.map (fun x => x.id) := by simpa using h
    simp only [dedupLastById]
    by_cases hc : r.id ∈ rs.map (fun x => x.id)
    · rw [if_pos hc]
      rcases h' with rfl | hi
      · exact countP_dedupLastById rs _ hc
      · exact countP_dedupLastById rs _ hi
    · rw [if_neg hc]
      rcases h' with rfl | hi
      · rw [List.countP_cons]
        have h0 : (dedupLastById rs).countP (fun x => decide (x.id = r.id)) = 0 := by
          rw [List.countP_eq_zero]
          intro a ha
          simp only [decide_eq_true_eq]
          intro hrid
          exact hc (by rw [← hrid]; exact mem_dedupLastById_ids ha)
        rw [h0]
        simp
      · rw [List.countP_cons]
        have hne : ¬ r.id = i := fun hri => hc (by rw [hri]; exact hi)
        rw [countP_dedupLastById rs i hi]
        simp [hne]

/-- C3: upserting a batch twice leaves exactly the store that one upsert
leaves; after an upsert every id of the batch identifies exactly one row;
and re-upserting an id replaces the whole row, the rows carrying that id
afterwards being exactly the one new row. -/
theorem c3_upsert_idempotent :
    ∀ (s rs : List Row),
      upsertBatch (upsertBatch s rs) rs = upsertBatch s rs ∧
      (∀ r, r ∈ rs →
        (upsertBatch s rs).countP (fun x => decide (x.id = r.id)) = 1) ∧
      (∀ r, (upsertOne r s).filter (fun x => decide (x.id = r.id)) = [r]) := by
  intro s rs
  refine ⟨?_, ?_, ?_⟩
  · rw [upsertBatch_eq_filter_append rs (upsertBatch s rs),
      upsertBatch_eq_filter_append rs s, List.filter_append, List.filter_filter]
    have hd : (dedupLastById rs).filter
        (fun x => decide (x.id ∉ rs.map (fun r => r.id))) = [] := by
      rw [List.filter_eq_nil_iff]
      intro a ha
      simp [mem_dedupLastById_ids ha]
    rw [hd, List.append_nil]
    congr 1
    apply List.filter_congr
    intro x _
    by_cases h2 : x.id ∈ rs.map (fun y => y.id) <;> simp [h2]
  · intro r hr
    rw [upsertBatch_eq_filter_append rs s, List.countP_append]
    have hid : r.id ∈ rs.map (fun y => y.id) := List.mem_map_of_mem _ hr
    have h0 : (s.filter (fun x => decide (x.id ∉ rs.map (fun y => y.id)))).countP
        (fun x => decide (x.id = r.id)) = 0 := by
      rw [List.countP_eq_zero]
      intro a ha
      rcases List.mem_filter.mp ha with ⟨_, hnot⟩
      simp only [decide_eq_true_eq] at hnot ⊢
      intro haid
      exact hnot (by rw [haid]; exact hid)
    rw [h0, countP_dedupLastById rs r.id hid]
  · intro r
    unfold upsertOne
    rw [List.filter_append]
    have h1 : (s.filter (fun x => decide (x.id ≠ r.id))).filter
        (fun x => decide (x.id = r.id)) = [] := by
      rw [List.filter_eq_nil_iff]
      intro a ha
      rcases List.mem_filter.mp ha with ⟨_, hne⟩
      simp only [decide_eq_true_eq] at hne ⊢
      exact hne
    rw [h1]
    simp [List.filter]

/-- C3 witness: the three conjuncts instantiated on concrete rows. -/
theorem c3_witness :
    upsertBatch (upsertBatch [] [rowA, rowB]) [rowA, rowB]
      = upsertBatch [] [rowA, rowB] ∧
    (upsertBatch [] [rowA, rowB]).countP (fun x => decide (x.id = rowA.id)) = 1 ∧
    (upsertOne rowA [rowB]).filter (fun x => decide (x.id = rowA.id)) = [rowA] :=
  ⟨(c3_upsert_idempotent [] [rowA, rowB]).1,
   (c3_upsert_idempotent [] [rowA, rowB]).2.1 rowA (by decide),
   (c3_upsert_idempotent [rowB] [rowA, rowB]).2.2 rowA⟩

/-- C8: the listing queries — all launches, filtered launches, and recent
launches with a LIMIT — return rows ordered by `date_unix` descending. -/
theorem c8_ordered_by_date_desc :
    ∀ (db : DB) (f : Filters) (limit : Nat),
      (get_all_launches_df db).Sorted dateDescOrder ∧
      (filter_launches f db).Sorted dateDescOrder ∧
      (get_recent_launches db limit).Sorted dateDescOrder := by
  intro db f limit
  refine ⟨?_, ?_, ?_⟩
  · exact List.sorted_insertionSort dateDescOrder db.launches
  · exact List.sorted_insertionSort dateDescOrder _
  · exact List.Pairwise.sublist (List.take_sublist _ _)
      (List.sorted_insertionSort dateDescOrder db.launches)

theorem startCond_iff (f : Filters) (r : Row) :
    startCond f r = true ↔ startOk f r := by
  unfold startCond startOk
  cases hs : f.start_date with
  | none => simp
  | some v =>
    dsimp only
    by_cases h0 : v = 0
    · rw [if_pos h0]
      simp only [true_iff]
      intro w hw hne
      injection hw with hw
      exact absurd (by rw [← hw]; exact h0) hne
    · rw [if_neg h0]
      simp only [decide_eq_true_eq]
      constructor
      · intro hle w hw _
        injection hw with hw
        rw [← hw]
        exact hle
      · intro hall
        exact hall v rfl h0

theorem endCond_iff (f : Filters) (r : Row) :
    endCond f r = true ↔ endOk f r := by
  unfold endCond endOk
  cases hs : f.end_date with
  | none => simp
  | some v =>
    dsimp only
    by_cases h0 : v = 0
    · rw [if_pos h0]
      simp only [true_iff]
      intro w hw hne
      injection hw with hw
      exact absurd (by rw [← hw]; exact h0) hne
    · rw [if_neg h0]
      simp only [decide_eq_true_eq]
      constructor
      · intro hle w hw _
        injection hw with hw
        rw [← hw]
        exact hle
      · intro hall
        exact hall v rfl h0

theorem rocketCond_iff (f : Filters) (r : Row) :
    rocketCond f r = true ↔ rocketOk f r := by
  unfold rocketCond rocketOk
  cases hs : f.rocket with
  | none => simp
  | some v =>
    dsimp only
    by_cases hA : v = "" ∨ v = "All"
    · rw [if_pos hA]
      simp only [true_iff]
      intro w hw hne hnA
      injection hw with hw
      subst hw
      rcases hA with rfl | rfl
      · exact absurd rfl hne
      · exact absurd rfl hnA
    · rw [if_neg hA]
      rw [not_or] at hA
      simp only [decide_eq_true_eq]
      constructor
      · intro heq w hw _ _
        injection hw with hw
        rw [← hw]
        exact heq
      · intro hall
        exact hall v rfl hA.1 hA.2

theorem siteCond_iff (f : Filters) (r : Row) :
    siteCond f r = true ↔ siteOk f r := by
  unfold siteCond siteOk
  cases hs : f.launch_site with
  | none => simp
  | some v =>
    dsimp only
    by_cases hA : v = "" ∨ v = "All"
    · rw [if_pos hA]
      simp only [true_iff]
      intro w hw hne hnA
      injection hw with hw
      subst hw
      rcases hA with rfl | rfl
      · exact absurd rfl hne
      · exact absurd rfl hnA
    · rw [if_neg hA]
      rw [not_or] at hA
      simp only [decide_eq_true_eq]
      constructor
      · intro heq w hw _ _
        injection hw with hw
        rw [← hw]
        exact heq
      · intro hall
        exact hall v rfl hA.1 hA.2

theorem statusCond_iff (f : Filters) (r : Row) :
    statusCond f r = true ↔ statusOk f r := by
  unfold statusCond statusOk
  cases hs : f.status with
  | none => simp
  | some v =>
    dsimp only
    by_cases hA : v = "" ∨ v = "All"
    · rw [if_pos hA]
      simp only [true_iff]
      intro w hw
      injection hw with hw
      subst hw
      rcases hA with rfl | rfl
      · exact ⟨fun h => absurd h (by decide), fun h => absurd h (by decide),
          fun h => absurd h (by decide)⟩
      · exact ⟨fun h => absurd h (by decide), fun h => absurd h (by decide),
          fun h => absurd h (by decide)⟩
    · rw [if_neg hA]
      by_cases h1 : v = "Success"
      · subst h1
        rw [if_pos rfl]
        simp only [decide_eq_true_eq]
        constructor
        · intro hsv w hw
          injection hw with hw
          subst hw
          exact ⟨fun _ => hsv, fun h => absurd h (by decide),
            fun h => absurd h (by decide)⟩
        · intro hall
          exact (hall "Success" rfl).1 rfl
      · rw [if_neg h1]
        by_cases h2 : v = "Failed"
        · subst h2
          rw [if_pos rfl]
          simp only [decide_eq_true_eq]
          constructor
          · intro hsv w hw
            injection hw with hw
            subst hw
            exact ⟨fun h => absurd h (by decide), fun _ => hsv,
              fun h => absurd h (by decide)⟩
          · intro hall
            exact (hall "Failed" rfl).2.1 rfl
        · rw [if_neg h2]
          by_cases h3 : v = "Pending"
          · subst h3
            rw [if_pos rfl]
            rw [Option.isNone_iff_eq_none]
            constructor
            · intro hsv w hw
              injection hw with hw
              subst hw
              exact ⟨fun h => absurd h (by decide),
                fun h => absurd h (by decide), fun _ => hsv⟩
            · intro hall
              exact (hall "Pending" rfl).2.2 rfl
          · rw [if_neg h3]
            simp only [true_iff]
            intro w hw
            injection hw with hw
            subst hw
            exact ⟨fun h => absurd h h1, fun h => absurd h h2,
              fun h => absurd h h3⟩

theorem matchesFilters_iff (f : Filters) (r : Row) :
    matchesFilters f r = true ↔
      (startOk f r ∧ endOk f r ∧ rocketOk f r ∧ statusOk f r ∧ siteOk f r) := by
  unfold matchesFilters
  rw [Bool.and_eq_true, Bool.and_eq_true, Bool.and_eq_true, Bool.and_eq_true]
  rw [startCond_iff, endCond_iff, rocketCond_iff, statusCond_iff, siteCond_iff]
  tauto

/-- C4 counterexample: with a supplied epoch upper bound of 0, the row with
`date_unix = 5` violates that supplied predicate yet appears in the result
of `filter_launches`, because Python treats the bound 0 as falsy and never
adds the condition.  This falsifies the claim that no record violating a
supplied predicate appears in the result. -/
theorem c4_counterexample :
    ({ baseRow with date_unix := 5 } : Row) ∈ filter_launches zeroEndFilters oneRowDB ∧
    zeroEndFilters.end_date = some 0 ∧
    ¬ (({ baseRow with date_unix := 5 } : Row).date_unix ≤ (0 : Int)) := by
  decide

/-- C4 (amended): `filter_launches` returns exactly the records of the full
listing that satisfy every supplied predicate, where a supplied epoch bound
of 0, an empty or `"All"` vehicle or site string, and a status string other
than the three recognized ones are treated as absent; the predicates
combine by conjunction and an absent predicate imposes no constraint. -/
theorem c4_filter_exact :
    ∀ (db : DB) (f : Filters) (r : Row),
      r ∈ filter_launches f db ↔
        (r ∈ get_all_launches_df db ∧ startOk f r ∧ endOk f r ∧
         rocketOk f r ∧ statusOk f r ∧ siteOk f r) := by
  intro db f r
  unfold filter_launches get_all_launches_df sortDateDesc
  rw [List.mem_insertionSort, List.mem_insertionSort, List.mem_filter]
  rw [matchesFilters_iff]

theorem orderedInsert_pairwise_countKeyOrder (a : String × Nat)
    (l : List (String × Nat)) (hl : l.Pairwise countKeyOrder)
    (ha : ∀ b ∈ l, keyLt a.1 b.1) :
    (l.orderedInsert countDescOrder a).Pairwise countKeyOrder := by
  induction l with
  | nil => simp [List.orderedInsert]
  | cons b bs ih =>
    rw [List.orderedInsert]
    by_cases hab : countDescOrder a b
    · rw [if_pos hab]
      refine List.pairwise_cons.mpr ⟨?_, hl⟩
      intro c hc
      have hcb : c.2 ≤ a.2 := by
        rcases List.mem_cons.mp hc with rfl | hc2
        · exact hab
        · rcases (List.pairwise_cons.mp hl).1 c hc2 with h | h
          · exact le_trans (le_of_lt h) hab
          · exact le_trans (le_of_eq h.1.symm) hab
      rcases lt_or_eq_of_le hcb with h | h
      · exact Or.inl h
      · exact Or.inr ⟨h.symm, ha c hc⟩
    · rw [if_neg hab]
      have hab2 : a.2 < b.2 := lt_of_not_le hab
      refine List.pairwise_cons.mpr
        ⟨?_, ih (List.pairwise_cons.mp hl).2
          (fun c hc => ha c (List.mem_cons_of_mem _ hc))⟩
      intro c hc
      rcases (List.mem_orderedInsert _).mp hc with rfl | hc2
      · exact Or.inl hab2
      · exact (List.pairwise_cons.mp hl).1 c hc2

theorem insertionSort_pairwise_countKeyOrder :
    ∀ l : List (String × Nat), l.Pairwise (fun x y => keyLt x.1 y.1) →
      (l.insertionSort countDescOrder).Pairwise countKeyOrder
  | [], _ => by simp [List.insertionSort]
  | b :: l, h => by
    rw [List.insertionSort]
    rcases List.pairwise_cons.mp h with ⟨hb, hl⟩
    apply orderedInsert_pairwise_countKeyOrder
    · exact insertionSort_pairwise_countKeyOrder l hl
    · intro c hc
      exact hb c ((List.mem_insertionSort _).mp hc)

theorem sortedKeys_pairwise_keyLt (names : List (Option String)) :
    (sortedKeys names).Pairwise keyLt := by
  have hs : (sortedKeys names).Pairwise keyLe :=
    List.sorted_insertionSort keyLe ((names.filterMap id).dedup)
  have hn : (sortedKeys names).Pairwise (fun a b => a ≠ b) :=
    ((List.perm_insertionSort keyLe _).nodup_iff).mpr
      (List.nodup_dedup _)
  refine (hs.and hn).imp ?_
  intro a b hab
  exact lt_of_le_of_ne hab.1
    (fun hd => hab.2 (by cases a; cases b; simp_all))

/-- C7: in every descending-by-count sequence produced by the statistics
query — the by-vehicle one and the by-site one — consecutive entries are
ordered by count strictly descending or, on equal counts, by the grouping
key in ascending string order, so the output order is deterministic; and
the two-record example store yields exactly the claimed by-vehicle list. -/
theorem c7_count_desc_tie_break :
    (∀ db : DB,
      (by_rocket db).Pairwise countKeyOrder ∧
      (by_launch_site db).Pairwise countKeyOrder) ∧
    by_rocket exampleDB = [("Falcon 9", 1), ("Falcon Heavy", 1)] := by
  constructor
  · intro db
    constructor
    · apply insertionSort_pairwise_countKeyOrder
      rw [List.pairwise_map]
      exact sortedKeys_pairwise_keyLt _
    · apply insertionSort_pairwise_countKeyOrder
      rw [List.pairwise_map]
      exact sortedKeys_pairwise_keyLt _
  · decide

theorem transformLaunch_success
    {rockets launchpads : String → Option String} {now : Int}
    {l : RawLaunch} {row : Row}
    (h : transformLaunch rockets launchpads now l = some row) :
    row.success = pySuccessEncode l.success := by
  unfold transformLaunch at h
  cases hi : l.id with
  | none => rw [hi] at h; exact absurd h (by simp)
  | some i =>
  cases hn : l.name with
  | none => rw [hi, hn] at h; exact absurd h (by simp)
  | some n =>
  cases hu : l.date_utc with
  | none => rw [hi, hn, hu] at h; exact absurd h (by simp)
  | some du =>
  cases hx : l.date_unix with
  | none => rw [hi, hn, hu, hx] at h; exact absurd h (by simp)
  | some dx =>
  rw [hi, hn, hu, hx] at h
  simp only [Option.some.injEq] at h
  rw [← h]

theorem countP_success_partition :
    ∀ (l : List Row), (∀ r ∈ l, successWF r) →
      l.countP (fun r => decide (r.success = some 1)) +
      l.countP (fun r => decide (r.success = some 0)) +
      l.countP (fun r => r.success.isNone) = l.length
  | [], _ => rfl
  | r :: l, h => by
    rw [List.countP_cons, List.countP_cons, List.countP_cons]
    have ih := countP_success_partition l
      (fun x hx => h x (List.mem_cons_of_mem _ hx))
    rcases h r (List.mem_cons_self _ _) with h1 | h1 | h1 <;>
      simp [h1, List.length_cons] <;> omega

/-- C10: the transformation writes only 1, 0 or NULL into the `success`
column, and for every store whose rows respect that invariant the
statistics satisfy successful + failed + pending = total: every row lands
in exactly one outcome bucket. -/
theorem c10_outcome_partition :
    (∀ (rockets launchpads : String → Option String) (now : Int)
       (l : RawLaunch) (row : Row),
       transformLaunch rockets launchpads now l = some row → successWF row) ∧
    (∀ db : DB, (∀ r ∈ db.launches, successWF r) →
      (get_launch_statistics db).successful + (get_launch_statistics db).failed +
        (get_launch_statistics db).pending = (get_launch_statistics db).total) := by
  constructor
  · intro rockets launchpads now l row h
    unfold successWF
    rw [transformLaunch_success h]
    cases hs : l.success with
    | none => simp [pySuccessEncode]
    | some b => cases b <;> simp [pySuccessEncode]
  · intro db hwf
    unfold get_launch_statistics successfulCount failedCount pendingCount
    exact countP_success_partition db.launches hwf

/-- C10 witness: the invariant on the row produced from the concrete raw
launch, and the bucket equation on the two-row example store. -/
theorem c10_witness :
    successWF rowFromRawA ∧
    (get_launch_statistics exampleDB).successful +
      (get_launch_statistics exampleDB).failed +
      (get_launch_statistics exampleDB).pending
      = (get_launch_statistics exampleDB).total :=
  ⟨c10_outcome_partition.1 (buildNameMap [("r9", "Falcon 9")]) (buildNameMap [])
     0 rawA rowFromRawA (by decide),
   c10_outcome_partition.2 exampleDB (by decide)⟩

theorem countP_option_filterMap :
    ∀ (os : List (Option String)) (k : String),
      os.countP (fun o => decide (o = some k)) =
        (os.filterMap id).countP (fun n => decide (n = k))
  | [], _ => rfl
  | o :: os, k => by
    cases o with
    | none =>
      rw [List.countP_cons]
      simp only [List.filterMap_cons, id_eq]
      rw [countP_option_filterMap os k]
      simp
    | some n =>
      rw [List.countP_cons]
      simp only [List.filterMap_cons, id_eq]
      rw [List.countP_cons, countP_option_filterMap os k]
      by_cases h : n = k <;> simp [h]

theorem countP_decide_eq_count (l : List String) (k : String) :
    l.countP (fun n => decide (n = k)) = l.count k := by
  induction l with
  | nil => rfl
  | cons b l ih =>
    rw [List.countP_cons, List.count_cons, ih]
    by_cases h : b = k <;> simp [h]

theorem length_filterMap_of_no_none :
    ∀ os : List (Option String), (∀ o ∈ os, o ≠ none) →
      (os.filterMap id).length = os.length
  | [], _ => rfl
  | o :: os, h => by
    cases o with
    | none => exact absurd rfl (h none (List.mem_cons_self _ _))
    | some n =>
      simp only [List.filterMap_cons, id, List.length_cons]
      rw [length_filterMap_of_no_none os
        (fun x hx => h x (List.mem_cons_of_mem _ hx))]

theorem countP_and_success_partition :
    ∀ (l : List Row) (q : Row → Bool), (∀ r ∈ l, successWF r) →
      l.countP (fun r => q r && decide (r.success = some 1)) +
      l.countP (fun r => q r && decide (r.success = some 0)) +
      l.countP (fun r => q r && r.success.isNone) = l.countP q
  | [], _, _ => rfl
  | r :: l, q, h => by
    rw [List.countP_cons, List.countP_cons, List.countP_cons, List.countP_cons]
    have ih := countP_and_success_partition l q
      (fun x hx => h x (List.mem_cons_of_mem _ hx))
    by_cases hq : q r = true
    · rcases h r (List.mem_cons_self _ _) with h1 | h1 | h1 <;>
        simp [h1, hq] <;> omega
    · rw [Bool.not_eq_true] at hq
      simp [hq]
      omega

/-- C9: over a store in which every record has a non-null vehicle name and
the `success` column respects the tri-state invariant, `by_rocket` has one
entry per distinct vehicle name, its counts sum to the number of records,
and for every vehicle the successful, failed and pending counts of
`by_rocket_success` sum to that vehicle entry of `by_rocket`. -/
theorem c9_by_vehicle_totals :
    ∀ db : DB,
      (∀ r ∈ db.launches, r.rocket_name ≠ none) →
      (∀ r ∈ db.launches, successWF r) →
      ((by_rocket db).length
          = ((db.launches.map (fun r => r.rocket_name)).filterMap id).dedup.length ∧
       ((by_rocket db).map (fun p => p.2)).sum = db.launches.length ∧
       (∀ k c, (k, c) ∈ by_rocket db →
         ∀ s fl pn, (k, (s, fl, pn)) ∈ by_rocket_success db →
           s + fl + pn = c)) := by
  intro db h1 h2
  refine ⟨?_, ?_, ?_⟩
  · unfold by_rocket
    rw [(List.perm_insertionSort countDescOrder _).length_eq, List.length_map]
    unfold sortedKeys
    rw [(List.perm_insertionSort keyLe _).length_eq]
  · have e1 : ((by_rocket db).map (fun p => p.2)).sum
        = (((sortedKeys (db.launches.map (fun r => r.rocket_name))).map
            (fun k => (k, rocketNameCount db k))).map (fun p => p.2)).sum :=
      ((List.perm_insertionSort countDescOrder _).map (fun p => p.2)).sum_eq
    rw [e1, List.map_map]
    have e2 : ((sortedKeys (db.launches.map (fun r => r.rocket_name))).map
          ((fun p : String × Nat => p.2) ∘ (fun k => (k, rocketNameCount db k)))).sum
        = ((((db.launches.map (fun r => r.rocket_name)).filterMap id).dedup).map
            ((fun p : String × Nat => p.2) ∘ (fun k => (k, rocketNameCount db k)))).sum :=
      ((List.perm_insertionSort keyLe _).map _).sum_eq
    rw [e2]
    have e3 : ∀ k, rocketNameCount db k
        = ((db.launches.map (fun r => r.rocket_name)).filterMap id).count k := by
      intro k
      unfold rocketNameCount
      rw [← countP_decide_eq_count, ← countP_option_filterMap, List.countP_map]
      rfl
    have e4 : (((db.launches.map (fun r => r.rocket_name)).filterMap id).dedup).map
          ((fun p : String × Nat => p.2) ∘ (fun k => (k, rocketNameCount db k)))
        = (((db.launches.map (fun r => r.rocket_name)).filterMap id).dedup).map
            (fun k => ((db.launches.map (fun r => r.rocket_name)).filterMap id).count k) := by
      apply List.map_congr_left
      intro a _
      exact e3 a
    rw [e4, List.sum_map_count_dedup_eq_length]
    have hno : ∀ o ∈ db.launches.map (fun r => r.rocket_name), o ≠ none := by
      intro o ho
      rcases List.mem_map.mp ho with ⟨r, hr, rfl⟩
      exact h1 r hr
    rw [length_filterMap_of_no_none _ hno, List.length_map]
  · intro k c hkc s fl pn hks
    have hkc2 : (k, c) ∈ (sortedKeys (db.launches.map (fun r => r.rocket_name))).map
        (fun k => (k, rocketNameCount db k)) := (List.mem_insertionSort _).mp hkc
    rcases List.mem_map.mp hkc2 with ⟨k2, _, heq⟩
    simp only [Prod.mk.injEq] at heq
    obtain ⟨hk2e, hc⟩ := heq
    rcases List.mem_map.mp hks with ⟨k3, _, heq3⟩
    simp only [Prod.mk.injEq] at heq3
    obtain ⟨hk3e, hs, hfl, hpn⟩ := heq3
    rw [← hc, hk2e, ← hs, ← hfl, ← hpn, hk3e]
    exact countP_and_success_partition db.launches
      (fun r => decide (r.rocket_name = some k)) h2

/-- C9 witness: the three conjuncts instantiated on the two-row example
store, whose rows all carry vehicle names and well-formed outcomes. -/
theorem c9_witness :
    (by_rocket exampleDB).length
        = ((exampleDB.launches.map (fun r => r.rocket_name)).filterMap id).dedup.length ∧
    ((by_rocket exampleDB).map (fun p => p.2)).sum = exampleDB.launches.length ∧
    1 + 0 + 0 = 1 := by
  have h := c9_by_vehicle_totals exampleDB (by decide) (by decide)
  exact ⟨h.1, h.2.1, h.2.2 "Falcon 9" 1 (by decide) 1 0 0 (by decide)⟩
